import Mathlib

/-!
Verification of the `splore` repository: the texture-packing tool
(`src/bin/pack.rs`) together with the renderer-side consumers
(`src/textureatlas.rs`, `src/tilemap.rs`, `src/scene.rs`, `src/main.rs`).

The skyline packer itself lives in the external `texture_packer` crate and
is not part of the repository's sources; where a claim depends on it, the
packer is modelled from the specification (those definitions carry a
`Modelled from the spec:` doc comment).  Everything else is translated
directly from the Rust sources.
-/

namespace Splore

/-! ## Tile maps (`src/tilemap.rs`, `src/main.rs`) -/

/-- Function `get_index` from `src/tilemap.rs:24-26` (an identical copy is at
`src/main.rs:31-33`): `(x + y * width) * 3 + x + y * width` computed on
`u16` values, i.e. with every operation taken modulo `2^16`. -/
def get_index (x y width : Nat) : Nat :=
  (((x + y * width % 65536) % 65536 * 3 % 65536 + x) % 65536
    + y * width % 65536) % 65536

/-- An index into a list is in range exactly when `getElem?` is `some`. -/
theorem isSome_index_iff {T : Type} (l : List T) (i : Nat) :
    l[i]?.isSome = true ↔ i < l.length := by
  simp [Option.isSome_iff_exists, List.getElem?_eq_some_iff]
  exact ⟨fun ⟨_, h, _⟩ => h, fun h => ⟨l[i], h, rfl⟩⟩

/-- Structure `TileMap` from `src/tilemap.rs:9-18`, restricted to the pure data the
claims are about (`width`, `height` and the row-major `tiles` vector; the
GPU buffers and shader program are rendering state with no bearing on
indexing). -/
structure TileMap (T : Type) where
  width : Nat
  height : Nat
  tiles : List T

/-- Method `TileMap::get` from `src/tilemap.rs:161-164`:
`self.tiles.get(self.width * y + x)`. -/
def TileMap.get {T : Type} (m : TileMap T) (x y : Nat) : Option T :=
  m.tiles[m.width * y + x]?

/-! ## Theorems for C9 and C10 -/

/-- C9: for all `x`, `y`, `width` of type `u16`, `get_index x y width`
equals `4 * (x + y * width)` with the arithmetic taken modulo `2^16`;
the base vertex index of tile `(x, y)` is four times its linear index. -/
theorem get_index_eq_four_mul_linear (x y width : Nat)
    (hx : x < 65536) (hy : y < 65536) (hw : width < 65536) :
    get_index x y width = 4 * (x + y * width) % 65536 := by
  unfold get_index
  generalize y * width = a
  omega

/-- Witness for C9 at `x = 3`, `y = 5`, `width = 7`. -/
theorem get_index_eq_four_mul_linear_witness :
    get_index 3 5 7 = 4 * (3 + 5 * 7) % 65536 :=
  get_index_eq_four_mul_linear 3 5 7 (by decide) (by decide) (by decide)

/-- C10: under the `TileMap::new` assertion `width * height = tiles.len()`
(`src/tilemap.rs:112`), `TileMap::get x y` returns the tile at linear index
`width * y + x`; it is `some` exactly when `width * y + x < width * height`,
so `x` is not separately bounded by `width`: for `width ≥ 1` and
`height ≥ 2`, `get width 0` returns the row-1 column-0 tile
(`get 0 1`) rather than `none`. -/
theorem TileMap.get_spec {T : Type} (m : TileMap T)
    (hlen : m.width * m.height = m.tiles.length) :
    (∀ x y, m.get x y = m.tiles[m.width * y + x]?) ∧
    (∀ x y, (m.get x y).isSome ↔ m.width * y + x < m.width * m.height) ∧
    (1 ≤ m.width → 2 ≤ m.height →
      m.get m.width 0 = m.get 0 1 ∧ (m.get m.width 0).isSome) := by
  refine ⟨fun x y => rfl, fun x y => ?_, fun h1 h2 => ⟨?_, ?_⟩⟩
  · rw [TileMap.get, isSome_index_iff, hlen]
  · show m.tiles[m.width * 0 + m.width]? = m.tiles[m.width * 1 + 0]?
    ring_nf
  · rw [TileMap.get, isSome_index_iff, ← hlen]
    have h3 : 2 * m.width ≤ m.height * m.width :=
      Nat.mul_le_mul_right m.width h2
    have hw : m.width * 0 + m.width = m.width := by ring
    rw [hw, Nat.mul_comm]
    omega

/-- Witness for C10 on the concrete 2×2 tile map `[0, 1, 2, 3]`:
`get 2 0` lands on the row-1 column-0 tile. -/
theorem TileMap.get_spec_witness :
    (∀ x y, (TileMap.mk 2 2 [0, 1, 2, 3]).get x y = [0, 1, 2, 3][2 * y + x]?) ∧
    (∀ x y, ((TileMap.mk 2 2 [0, 1, 2, 3]).get x y).isSome ↔ 2 * y + x < 2 * 2) ∧
    (1 ≤ 2 → 2 ≤ 2 →
      (TileMap.mk 2 2 [0, 1, 2, 3]).get 2 0 = (TileMap.mk 2 2 [0, 1, 2, 3]).get 0 1 ∧
      ((TileMap.mk 2 2 [0, 1, 2, 3]).get 2 0).isSome) :=
  TileMap.get_spec (TileMap.mk 2 2 [0, 1, 2, 3]) (by decide)

/-! ## Texture atlas (`src/textureatlas.rs`) -/

/-- Structure `Frame` from `src/textureatlas.rs:16-23`.  The `f32` fields are
modelled as exact rationals (the claims are about the division formulas,
not about rounding). -/
structure Frame where
  u1 : ℚ
  v1 : ℚ
  u2 : ℚ
  v2 : ℚ
  w : ℚ
  h : ℚ
deriving DecidableEq

/-- Structure `TextureAtlas` from `src/textureatlas.rs:35-38`: the `HashMap` of
frames is modelled as an association list whose keys are unique by
construction (insertion replaces an existing binding, as `HashMap::insert`
does).  The GPU texture handle is omitted; only its pixel dimensions
matter and those are passed explicitly where needed. -/
structure TextureAtlas where
  frames : List (String × Frame)
deriving DecidableEq

/-- Model of `HashMap::insert`: replaces any existing binding for the key,
otherwise appends. -/
def insertAssoc {V : Type} (k : String) (v : V) :
    List (String × V) → List (String × V)
  | [] => [(k, v)]
  | (k', v') :: rest =>
    if k = k' then (k, v) :: rest else (k', v') :: insertAssoc k v rest

/-- The `Frame` construction at `src/textureatlas.rs:79-86`:
`u1 = x / W`, `v1 = y / H`, `u2 = (x + w) / W`, `v2 = (y + h) / H`,
pixel sizes copied through. -/
def mkFrame (W H x y w h : ℚ) : Frame :=
  { u1 := x / W, v1 := y / H, u2 := (x + w) / W, v2 := (y + h) / H,
    w := w, h := h }

/-- The manifest-entry loop of `TextureAtlas::from_packed`
(`src/textureatlas.rs:72-88`): every `(name, [x, y, w, h])` entry is
converted with `mkFrame` and inserted into the `tiles` map. -/
def buildTiles (W H : ℚ) :
    List (String × ℚ × ℚ × ℚ × ℚ) → List (String × Frame) →
    List (String × Frame)
  | [], m => m
  | (n, x, y, w, h) :: rest, m =>
    buildTiles W H rest (insertAssoc n (mkFrame W H x y w h) m)

/-- Constructor `TextureAtlas::from_packed` (`src/textureatlas.rs:53-90`), abstracted
over the decoded manifest entries and the atlas pixel dimensions `W`, `H`
(the image/JSON file loading is I/O plumbing outside the data model). -/
def TextureAtlas.from_packed (W H : ℚ)
    (entries : List (String × ℚ × ℚ × ℚ × ℚ)) : TextureAtlas :=
  ⟨buildTiles W H entries []⟩

/-- Method `TextureAtlas::get_frame` from `src/textureatlas.rs:103-105`. -/
def TextureAtlas.get_frame (a : TextureAtlas) (name : String) : Option Frame :=
  a.frames.lookup name

/-- The frame-lookup loop shared by `Scene::add_sprite`
(`src/scene.rs:211-217`) and `TileMap::new` (`src/tilemap.rs:119-123`):
each requested name is looked up and the `Option` is unwrapped with
`.expect(...)`; a missing frame panics, modelled as `Except.error` carrying
the offending name. -/
def expectFrames (atlas : TextureAtlas) : List String → Except String (List Frame)
  | [] => .ok []
  | n :: rest =>
    match atlas.get_frame n with
    | none => .error n
    | some f => (expectFrames atlas rest).map (f :: ·)

/-- Method `Scene::add_sprite` from `src/scene.rs:209-217`: asserts the frame
list is nonempty, then resolves every frame name with `.expect`
(a panic — `Except.error` — when a name is missing). -/
def Scene.add_sprite (atlas : TextureAtlas) (frameNames : List String) :
    Except String (List Frame) :=
  if frameNames = [] then .error "assertion failed: frames.len() > 0"
  else expectFrames atlas frameNames

/-- The per-tile uv lookup of `TileMap::new` (`src/tilemap.rs:119-123`):
`atlas.get_uvs(name).expect(...)` — a missing name panics. -/
def TileMap.newUvs (atlas : TextureAtlas) (tileNames : List String) :
    Except String (List Frame) :=
  expectFrames atlas tileNames

/-! ### Lookup lemmas for the atlas map -/

theorem lookup_insertAssoc_self {V : Type} (k : String) (v : V)
    (m : List (String × V)) :
    (insertAssoc k v m).lookup k = some v := by
  induction m with
  | nil => simp [insertAssoc, List.lookup]
  | cons kv rest ih =>
    obtain ⟨k', v'⟩ := kv
    by_cases h : k = k'
    · simp [insertAssoc, h, List.lookup]
    · simp only [insertAssoc, if_neg h, List.lookup]
      have : (k == k') = false := by simpa using h
      simp [this, ih]

theorem lookup_insertAssoc_ne {V : Type} (name k : String) (v : V)
    (m : List (String × V)) (hne : name ≠ k) :
    (insertAssoc k v m).lookup name = m.lookup name := by
  induction m with
  | nil =>
    have hb : (name == k) = false := by simpa using hne
    simp [insertAssoc, List.lookup, hb]
  | cons kv rest ih =>
    obtain ⟨k', v'⟩ := kv
    by_cases h' : k = k'
    · subst h'
      have hb : (name == k) = false := by simpa using hne
      simp [insertAssoc, List.lookup, hb]
    · simp only [insertAssoc, if_neg h', List.lookup]
      by_cases h'' : name = k'
      · simp [h'']
      · have hb : (name == k') = false := by simpa using h''
        simp [hb, ih]

theorem lookup_buildTiles_not_mem (W H : ℚ)
    (entries : List (String × ℚ × ℚ × ℚ × ℚ)) (m : List (String × Frame))
    (name : String) (hnm : name ∉ entries.map Prod.fst) :
    (buildTiles W H entries m).lookup name = m.lookup name := by
  induction entries generalizing m with
  | nil => rfl
  | cons e rest ih =>
    obtain ⟨n, x, y, w, h⟩ := e
    simp only [List.map_cons, List.mem_cons, not_or] at hnm
    rw [buildTiles, ih _ hnm.2, lookup_insertAssoc_ne _ _ _ _ hnm.1]

theorem lookup_buildTiles_mem (W H x y w h : ℚ) (name : String)
    (entries : List (String × ℚ × ℚ × ℚ × ℚ)) (m : List (String × Frame))
    (hmem : (name, x, y, w, h) ∈ entries)
    (hnd : (entries.map Prod.fst).Nodup) :
    (buildTiles W H entries m).lookup name = some (mkFrame W H x y w h) := by
  induction entries generalizing m with
  | nil => cases hmem
  | cons e rest ih =>
    obtain ⟨n, x', y', w', h'⟩ := e
    simp only [List.map_cons, List.nodup_cons] at hnd
    rcases List.mem_cons.mp hmem with heq | htail
    · simp only [Prod.mk.injEq] at heq
      obtain ⟨rfl, rfl, rfl, rfl, rfl⟩ := heq
      rw [buildTiles, lookup_buildTiles_not_mem _ _ _ _ _ hnd.1,
        lookup_insertAssoc_self]
    · rw [buildTiles]
      exact ih _ htail hnd.2

theorem expectFrames_error_of_missing (atlas : TextureAtlas) (name : String)
    (names : List String) (hmiss : atlas.get_frame name = none)
    (hmem : name ∈ names) :
    ∃ msg, expectFrames atlas names = .error msg := by
  induction names with
  | nil => cases hmem
  | cons n rest ih =>
    rcases List.mem_cons.mp hmem with rfl | htail
    · exact ⟨name, by simp [expectFrames, hmiss]⟩
    · cases hn : atlas.get_frame n with
      | none => exact ⟨n, by simp [expectFrames, hn]⟩
      | some f =>
        obtain ⟨msg, hm⟩ := ih htail
        exact ⟨msg, by simp [expectFrames, hn, hm, Except.map]⟩

/-! ### Theorems for C7 and C8 -/

/-- C7: every manifest entry `(x, y, w, h)` loaded by
`TextureAtlas::from_packed` against an atlas of width `W` and height `H`
is stored as a `Frame` with `u1 = x/W`, `v1 = y/H`, `u2 = (x+w)/W`,
`v2 = (y+h)/H`, and pixel dimensions `w` and `h` unchanged. -/
theorem from_packed_frame_formula (W H x y w h : ℚ) (name : String)
    (entries : List (String × ℚ × ℚ × ℚ × ℚ))
    (hmem : (name, x, y, w, h) ∈ entries)
    (hnd : (entries.map Prod.fst).Nodup) :
    (TextureAtlas.from_packed W H entries).get_frame name =
      some { u1 := x / W, v1 := y / H, u2 := (x + w) / W,
             v2 := (y + h) / H, w := w, h := h } :=
  lookup_buildTiles_mem W H x y w h name entries [] hmem hnd

/-- Witness for C7: one entry `("a", 1, 2, 3, 4)` in an 8×16 atlas. -/
theorem from_packed_frame_formula_witness :
    (TextureAtlas.from_packed 8 16 [("a", 1, 2, 3, 4)]).get_frame "a" =
      some { u1 := 1 / 8, v1 := 2 / 16, u2 := (1 + 3) / 8,
             v2 := (2 + 4) / 16, w := 3, h := 4 } :=
  from_packed_frame_formula 8 16 1 2 3 4 "a" [("a", 1, 2, 3, 4)]
    (by simp) (by simp)

/-- C8 counterexample: requesting the missing frame `"foo"` through
`Scene::add_sprite` or `TileMap::new` hits the `.expect` unwrap and
panics (modelled as `Except.error`), so a missing frame IS fatal in the
renderer's sprite/tile constructors — refuting the claim's "not fatal to
the renderer". -/
theorem missing_frame_fatal_cex :
    Scene.add_sprite (TextureAtlas.mk []) ["foo"] = Except.error "foo" ∧
    TileMap.newUvs (TextureAtlas.mk []) ["foo"] = Except.error "foo" :=
  ⟨rfl, rfl⟩

/-- C8 (amended): for a frame name not present in the atlas, the lookup
itself (`TextureAtlas::get_frame`) returns `None` rather than aborting —
recoverable at the lookup level — but `Scene::add_sprite` and
`TileMap::new` unwrap the lookup with `.expect`, so a missing requested
frame is fatal (a panic) in those callers. -/
theorem missing_frame_lookup_recoverable_callers_fatal
    (atlas : TextureAtlas) (name : String) (names : List String)
    (hmiss : atlas.frames.lookup name = none) (hmem : name ∈ names) :
    atlas.get_frame name = none ∧
    (∃ msg, Scene.add_sprite atlas names = Except.error msg) ∧
    (∃ msg, TileMap.newUvs atlas names = Except.error msg) := by
  have hg : atlas.get_frame name = none := hmiss
  refine ⟨hg, ?_, expectFrames_error_of_missing atlas name names hg hmem⟩
  have hne : names ≠ [] := by rintro rfl; cases hmem
  obtain ⟨msg, hm⟩ := expectFrames_error_of_missing atlas name names hg hmem
  exact ⟨msg, by rw [Scene.add_sprite, if_neg hne]; exact hm⟩

/-- Witness for the amended C8 at a one-frame atlas missing `"foo"`. -/
theorem missing_frame_lookup_recoverable_callers_fatal_witness :
    (TextureAtlas.mk [("bar", mkFrame 1 1 0 0 1 1)]).get_frame "foo" = none ∧
    (∃ msg, Scene.add_sprite (TextureAtlas.mk [("bar", mkFrame 1 1 0 0 1 1)])
      ["foo"] = Except.error msg) ∧
    (∃ msg, TileMap.newUvs (TextureAtlas.mk [("bar", mkFrame 1 1 0 0 1 1)])
      ["foo"] = Except.error msg) :=
  missing_frame_lookup_recoverable_callers_fatal
    (TextureAtlas.mk [("bar", mkFrame 1 1 0 0 1 1)]) "foo" ["foo"]
    rfl (by simp)

/-! ## The skyline packer

The packer lives in the external `texture_packer` crate, outside this
repository's sources; the definitions below are modelled from the spec
(spec section 3 "Skyline" and section 4.1 "Packer"). -/

/-- Modelled from the spec: `PackConfig` (spec section 3) — the fields of
`TexturePackerConfig` used by `src/bin/pack.rs:47-50` (`allow_rotation`
is fixed `false` there and rotation is never exercised, so it is not a
field of the model). -/
structure PackCfg where
  border_padding : Nat
  max_width : Nat
  max_height : Nat
deriving DecidableEq

/-- A pixel rectangle `{x, y, width, height}` in atlas coordinates,
top-left origin (spec section 3 "Placement"). -/
structure Rect where
  x : Nat
  y : Nat
  w : Nat
  h : Nat
deriving DecidableEq

/-- Two rectangles intersect when they share at least one pixel: their
half-open x-ranges and y-ranges both overlap. -/
def Rect.intersects (a b : Rect) : Prop :=
  max a.x b.x < min (a.x + a.w) (b.x + b.w) ∧
  max a.y b.y < min (a.y + a.h) (b.y + b.h)

instance (a b : Rect) : Decidable (a.intersects b) := by
  unfold Rect.intersects; infer_instance

/-- Modelled from the spec: the Skyline is "the current upper boundary of
placed content ... covering the full configured atlas width" (spec
section 3); it is represented by the height of placed content above each
x column, `skyAt` reading the height of column `i`. -/
def skyAt (sky : List Nat) (i : Nat) : Nat := sky.getD i 0

/-- Modelled from the spec: the initial skyline of an empty atlas —
height 0 across the whole configured width. -/
def skyInit (cfg : PackCfg) : List Nat := List.replicate cfg.max_width 0

/-- Modelled from the spec: "the y at which the rectangle would rest (the
maximum skyline height across the segments it spans)" (spec section 4.1
step 3) — the maximum of the skyline over the span `[x, x + w)`. -/
def restY (sky : List Nat) (x : Nat) : Nat → Nat
  | 0 => 0
  | w + 1 => max (restY sky x w) (skyAt sky (x + w))

/-- Modelled from the spec: the "waste (area between the rectangle's
underside and the skyline it spans)" (spec section 4.1 step 3) for a
rectangle of width `w` resting at height `y` at position `x`. -/
def wasteUnder (sky : List Nat) (x y : Nat) : Nat → Nat
  | 0 => 0
  | w + 1 => wasteUnder sky x y w + (y - skyAt sky (x + w))

/-- Modelled from the spec: "every candidate x position where the
footprint fits within atlas bounds" with its resting y (spec section 4.1
steps 3-4), in ascending x order. -/
def candidates (cfg : PackCfg) (sky : List Nat) (fw fh : Nat) :
    List (Nat × Nat) :=
  (List.range (cfg.max_width + 1 - fw)).filterMap fun x =>
    if x + fw ≤ cfg.max_width ∧ restY sky x fw + fh ≤ cfg.max_height
    then some (x, restY sky x fw) else none

/-- Modelled from the spec: best-fit comparison — "pick the one with the
lowest resulting y; break ties by smallest resulting waste; break further
ties by leftmost x" (spec section 4.1 step 3).  Candidates are folded in
ascending x order and a later candidate replaces the current best only
when strictly better, so equal `(y, waste)` keeps the leftmost. -/
def pickBest (sky : List Nat) (fw : Nat) (a c : Nat × Nat) : Nat × Nat :=
  if c.2 < a.2 ∨
      (c.2 = a.2 ∧ wasteUnder sky c.1 c.2 fw < wasteUnder sky a.1 a.2 fw)
  then c else a

/-- Modelled from the spec: the candidate search of spec section 4.1
step 3, `none` when no candidate fits (step 4). -/
def chooseBest (cfg : PackCfg) (sky : List Nat) (fw fh : Nat) :
    Option (Nat × Nat) :=
  match candidates cfg sky fw fh with
  | [] => none
  | c :: cs => some (cs.foldl (pickBest sky fw) c)

/-- Modelled from the spec: the skyline update of spec section 4.1
step 5 — every column under the committed footprint is raised to the new
top surface. -/
def skyPlace (sky : List Nat) (x w top : Nat) : List Nat :=
  (List.range sky.length).map fun i =>
    if x ≤ i ∧ i < x + w then top else skyAt sky i

/-- A committed placement: source identifier plus its destination
rectangle, the rectangle excluding the border padding (spec section 3
"Placement", section 4.1 step 6). -/
structure Placement where
  name : String
  frame : Rect
deriving DecidableEq

/-- Modelled from the spec: `PackError` (spec section 4.1 step 4). -/
inductive PackError
  | OutOfSpace
deriving DecidableEq

/-- Modelled from the spec: one `pack` call (spec section 4.1 steps 2-6):
pad the footprint, search the skyline, fail when nothing fits, otherwise
commit the placement (frame excludes the padding) and raise the
skyline. -/
def packOne (cfg : PackCfg) (sky : List Nat) (name : String) (w h : Nat) :
    Option (Placement × List Nat) :=
  let fw := w + 2 * cfg.border_padding
  let fh := h + 2 * cfg.border_padding
  match chooseBest cfg sky fw fh with
  | none => none
  | some (x, y) =>
    some (⟨name, ⟨x + cfg.border_padding, y + cfg.border_padding, w, h⟩⟩,
      skyPlace sky x fw (y + fh))

/-- Modelled from the spec: a completed pack per the Packer contract
(spec section 4.1): `pack` once per source image, in the supplied order,
aborting the whole batch with `OutOfSpace` when a placement fails. -/
def packAll (cfg : PackCfg) (sky : List Nat) :
    List (String × Nat × Nat) → Except PackError (List Placement × List Nat)
  | [] => .ok ([], sky)
  | (n, w, h) :: rest =>
    match packOne cfg sky n w h with
    | none => .error .OutOfSpace
    | some (p, sky') =>
      match packAll cfg sky' rest with
      | .error e => .error e
      | .ok (ps, skyF) => .ok (p :: ps, skyF)

/-- A placement's rectangle expanded by `border_padding` on every side:
the reserved footprint (spec section 3 "Placement" invariant). -/
def paddedRect (cfg : PackCfg) (p : Placement) : Rect :=
  ⟨p.frame.x - cfg.border_padding, p.frame.y - cfg.border_padding,
   p.frame.w + 2 * cfg.border_padding, p.frame.h + 2 * cfg.border_padding⟩

/-- A rectangle rests below the skyline: every column of its span is at
least as high as its top edge. -/
def Under (sky : List Nat) (r : Rect) : Prop :=
  ∀ i, i < r.w → r.y + r.h ≤ skyAt sky (r.x + i)

/-- A rectangle rests on or above the skyline: no column of its span
reaches above its bottom edge. -/
def Above (sky : List Nat) (r : Rect) : Prop :=
  ∀ i, i < r.w → skyAt sky (r.x + i) ≤ r.y

/-! ### Skyline lemmas -/

theorem restY_ge (sky : List Nat) (x : Nat) :
    ∀ w i, i < w → skyAt sky (x + i) ≤ restY sky x w := by
  intro w
  induction w with
  | zero => intro i hi; cases hi
  | succ w ih =>
    intro i hi
    rcases Nat.lt_succ_iff_lt_or_eq.mp hi with h | rfl
    · exact le_trans (ih i h) (le_max_left _ _)
    · exact le_max_right _ _

theorem length_skyPlace (sky : List Nat) (x w top : Nat) :
    (skyPlace sky x w top).length = sky.length := by
  simp [skyPlace]

theorem skyAt_default (sky : List Nat) (c : Nat) (hc : sky.length ≤ c) :
    skyAt sky c = 0 := by
  rw [skyAt, List.getD_eq_getElem?_getD, List.getElem?_eq_none hc,
    Option.getD_none]

theorem skyAt_skyPlace (sky : List Nat) (x w top c : Nat) :
    skyAt (skyPlace sky x w top) c =
      if c < sky.length then
        (if x ≤ c ∧ c < x + w then top else skyAt sky c)
      else 0 := by
  by_cases hc : c < sky.length
  · rw [skyAt, List.getD_eq_getElem?_getD, skyPlace, List.getElem?_map,
      List.getElem?_range hc, if_pos hc]
    rfl
  · rw [if_neg hc]
    exact skyAt_default _ _
      (by simpa [length_skyPlace] using Nat.le_of_not_lt hc)

theorem pickBest_eq_or (sky : List Nat) (fw : Nat) (a c : Nat × Nat) :
    pickBest sky fw a c = a ∨ pickBest sky fw a c = c := by
  unfold pickBest
  split
  · exact Or.inr rfl
  · exact Or.inl rfl

theorem foldl_pickBest_mem (sky : List Nat) (fw : Nat) :
    ∀ (cs : List (Nat × Nat)) (c : Nat × Nat),
      cs.foldl (pickBest sky fw) c ∈ c :: cs := by
  intro cs
  induction cs with
  | nil => intro c; simp
  | cons d ds ih =>
    intro c
    rw [List.foldl_cons]
    rcases pickBest_eq_or sky fw c d with h | h
    · rw [h]
      have h2 := ih c
      simp only [List.mem_cons] at h2 ⊢
      tauto
    · rw [h]
      have h2 := ih d
      simp only [List.mem_cons] at h2 ⊢
      tauto

theorem mem_candidates (cfg : PackCfg) (sky : List Nat) (fw fh x y : Nat)
    (h : (x, y) ∈ candidates cfg sky fw fh) :
    y = restY sky x fw ∧ x + fw ≤ cfg.max_width ∧
      y + fh ≤ cfg.max_height := by
  rw [candidates, List.mem_filterMap] at h
  obtain ⟨a, _, hfa⟩ := h
  by_cases hc : a + fw ≤ cfg.max_width ∧ restY sky a fw + fh ≤ cfg.max_height
  · rw [if_pos hc] at hfa
    injection hfa with h1
    rw [Prod.mk.injEq] at h1
    obtain ⟨rfl, rfl⟩ := h1
    exact ⟨rfl, hc.1, hc.2⟩
  · rw [if_neg hc] at hfa
    cases hfa

theorem chooseBest_mem (cfg : PackCfg) (sky : List Nat) (fw fh x y : Nat)
    (h : chooseBest cfg sky fw fh = some (x, y)) :
    y = restY sky x fw ∧ x + fw ≤ cfg.max_width ∧
      y + fh ≤ cfg.max_height := by
  rw [chooseBest] at h
  cases hcand : candidates cfg sky fw fh with
  | nil => rw [hcand] at h; cases h
  | cons c cs =>
    rw [hcand] at h
    injection h with h1
    have hmem := foldl_pickBest_mem sky fw cs c
    rw [h1] at hmem
    exact mem_candidates cfg sky fw fh x y (hcand ▸ hmem)


theorem packOne_some (cfg : PackCfg) (sky : List Nat) (name : String)
    (w h : Nat) (p : Placement) (sky' : List Nat)
    (hp : packOne cfg sky name w h = some (p, sky')) :
    ∃ x y, y = restY sky x (w + 2 * cfg.border_padding) ∧
      p = Placement.mk name
        (Rect.mk (x + cfg.border_padding) (y + cfg.border_padding) w h) ∧
      sky' = skyPlace sky x (w + 2 * cfg.border_padding)
        (y + (h + 2 * cfg.border_padding)) ∧
      x + (w + 2 * cfg.border_padding) ≤ cfg.max_width ∧
      y + (h + 2 * cfg.border_padding) ≤ cfg.max_height := by
  simp only [packOne] at hp
  cases hcb : chooseBest cfg sky (w + 2 * cfg.border_padding)
      (h + 2 * cfg.border_padding) with
  | none => rw [hcb] at hp; cases hp
  | some xy =>
    obtain ⟨x, y⟩ := xy
    rw [hcb] at hp
    obtain ⟨hy, hxw, hyh⟩ := chooseBest_mem cfg sky _ _ x y hcb
    injection hp with h1
    rw [Prod.mk.injEq] at h1
    exact ⟨x, y, hy, h1.1.symm, h1.2.symm, hxw, hyh⟩

theorem skyAt_le_skyPlace (sky : List Nat) (x w fh c : Nat) :
    skyAt sky c ≤ skyAt (skyPlace sky x w (restY sky x w + fh)) c := by
  rw [skyAt_skyPlace]
  by_cases hc : c < sky.length
  · rw [if_pos hc]
    by_cases hin : x ≤ c ∧ c < x + w
    · rw [if_pos hin]
      have h1 := restY_ge sky x w (c - x) (by omega)
      have hxc : x + (c - x) = c := by omega
      rw [hxc] at h1
      omega
    · rw [if_neg hin]
  · rw [if_neg hc, skyAt_default sky c (Nat.le_of_not_lt hc)]

theorem under_mono {s s' : List Nat} {r : Rect}
    (hmono : ∀ c, skyAt s c ≤ skyAt s' c) (hu : Under s r) : Under s' r :=
  fun i hi => le_trans (hu i hi) (hmono (r.x + i))

theorem above_anti {s s' : List Nat} {r : Rect}
    (hmono : ∀ c, skyAt s c ≤ skyAt s' c) (ha : Above s' r) : Above s r :=
  fun i hi => le_trans (hmono (r.x + i)) (ha i hi)

theorem not_intersects_of_under_above {s : List Nat} {a b : Rect}
    (hu : Under s a) (hb : Above s b) : ¬ a.intersects b := by
  rintro ⟨hx, hy⟩
  have hax : a.x ≤ max a.x b.x := le_max_left _ _
  have hbx : b.x ≤ max a.x b.x := le_max_right _ _
  have hxa : max a.x b.x < a.x + a.w := lt_of_lt_of_le hx (min_le_left _ _)
  have hxb : max a.x b.x < b.x + b.w := lt_of_lt_of_le hx (min_le_right _ _)
  have h1 := hu (max a.x b.x - a.x) (by omega)
  have h2 := hb (max a.x b.x - b.x) (by omega)
  rw [Nat.add_sub_cancel' hax] at h1
  rw [Nat.add_sub_cancel' hbx] at h2
  have h3 : b.y < a.y + a.h :=
    lt_of_le_of_lt (le_max_right a.y b.y) (lt_of_lt_of_le hy (min_le_left _ _))
  omega

theorem under_new_skyPlace (sky : List Nat) (x fw y fh : Nat)
    (hxw : x + fw ≤ sky.length) :
    Under (skyPlace sky x fw (y + fh)) (Rect.mk x y fw fh) := by
  intro i hi
  have hi' : i < fw := hi
  show y + fh ≤ skyAt _ (x + i)
  rw [skyAt_skyPlace, if_pos (show x + i < sky.length by omega),
    if_pos ⟨by omega, by omega⟩]

theorem above_restY (sky : List Nat) (x fw fh : Nat) :
    Above sky (Rect.mk x (restY sky x fw) fw fh) :=
  fun i hi => restY_ge sky x fw i hi

/-- The per-placement part of the packing invariant: the padded footprint
fits in the atlas bounds, the frame excludes the padding, the footprint
rests on or above the starting skyline and below the final skyline. -/
def GoodPlacement (cfg : PackCfg) (sky skyF : List Nat) (p : Placement) :
    Prop :=
  (paddedRect cfg p).x + (paddedRect cfg p).w ≤ cfg.max_width ∧
  (paddedRect cfg p).y + (paddedRect cfg p).h ≤ cfg.max_height ∧
  cfg.border_padding ≤ p.frame.x ∧ cfg.border_padding ≤ p.frame.y ∧
  Above sky (paddedRect cfg p) ∧ Under skyF (paddedRect cfg p)

theorem paddedRect_mk (cfg : PackCfg) (name : String) (x y w h : Nat) :
    paddedRect cfg (Placement.mk name
        (Rect.mk (x + cfg.border_padding) (y + cfg.border_padding) w h)) =
      Rect.mk x y (w + 2 * cfg.border_padding) (h + 2 * cfg.border_padding) := by
  simp [paddedRect]

theorem packAll_spec (cfg : PackCfg) :
    ∀ (imgs : List (String × Nat × Nat)) (sky : List Nat)
      (ps : List Placement) (skyF : List Nat),
      sky.length = cfg.max_width →
      packAll cfg sky imgs = .ok (ps, skyF) →
      skyF.length = cfg.max_width ∧
      (∀ c, skyAt sky c ≤ skyAt skyF c) ∧
      (∀ p ∈ ps, GoodPlacement cfg sky skyF p) ∧
      List.Pairwise
        (fun p q => ¬ (paddedRect cfg p).intersects (paddedRect cfg q)) ps := by
  intro imgs
  induction imgs with
  | nil =>
    intro sky ps skyF hlen hok
    rw [packAll] at hok
    injection hok with h1
    rw [Prod.mk.injEq] at h1
    obtain ⟨rfl, rfl⟩ := h1
    exact ⟨hlen, fun c => le_refl _, by simp, by simp⟩
  | cons img rest ih =>
    intro sky ps skyF hlen hok
    obtain ⟨n, w, h⟩ := img
    rw [packAll] at hok
    split at hok
    · cases hok
    · rename_i p sky' hp1
      split at hok
      · cases hok
      · rename_i ps' skyF' hrest
        injection hok with h1
        rw [Prod.mk.injEq] at h1
        obtain ⟨h2, rfl⟩ := h1
        subst h2
        obtain ⟨x, y, hy, hpeq, hskyeq, hxw, hyh⟩ :=
          packOne_some cfg sky n w h p sky' hp1
        subst hpeq
        subst hy
        have hlen' : sky'.length = cfg.max_width := by
          rw [hskyeq, length_skyPlace, hlen]
        obtain ⟨hlenF, hmono2, hgood', hpw'⟩ :=
          ih sky' ps' skyF' hlen' hrest
        have hmono1 : ∀ c, skyAt sky c ≤ skyAt sky' c := by
          intro c
          rw [hskyeq]
          exact skyAt_le_skyPlace sky x (w + 2 * cfg.border_padding)
            (h + 2 * cfg.border_padding) c
        have hmono : ∀ c, skyAt sky c ≤ skyAt skyF' c :=
          fun c => le_trans (hmono1 c) (hmono2 c)
        have hunder_new : Under sky'
            (Rect.mk x (restY sky x (w + 2 * cfg.border_padding))
              (w + 2 * cfg.border_padding) (h + 2 * cfg.border_padding)) := by
          rw [hskyeq]
          exact under_new_skyPlace sky x _ _ _ (by omega)
        refine ⟨hlenF, hmono, ?_, ?_⟩
        · intro q hq
          rcases List.mem_cons.mp hq with rfl | hq'
          · unfold GoodPlacement
            rw [paddedRect_mk]
            exact ⟨hxw, hyh, Nat.le_add_left _ _, Nat.le_add_left _ _,
              above_restY sky x _ _, under_mono hmono2 hunder_new⟩
          · obtain ⟨g1, g2, g3, g4, g5, g6⟩ := hgood' q hq'
            exact ⟨g1, g2, g3, g4, above_anti hmono1 g5, g6⟩
        · refine List.Pairwise.cons ?_ hpw'
          intro q hq
          rw [paddedRect_mk]
          exact not_intersects_of_under_above hunder_new
            ((hgood' q hq).2.2.2.2.1)

/-! ## The pack tool pipeline (`src/bin/pack.rs`) -/

/-- The fragment of `serde_json::Value` that the manifest uses
(`src/bin/pack.rs:65-75` builds the value from nested `BTreeMap`s and a
`u32` 4-tuple, which serde serializes as a JSON array). -/
inductive Json where
  | nat : Nat → Json
  | str : String → Json
  | arr : List Json → Json
  | obj : List (String × Json) → Json

mutual

/-- Serialization of a `Json` value to its textual form.  `pack.rs:74`
uses `Serializer::pretty`; the claims are about the serialized content
and key order, not inter-token whitespace, so a compact renderer is
used. -/
def renderJson : Json → String
  | .nat n => toString n
  | .str s => "\"" ++ s ++ "\""
  | .arr xs => "[" ++ renderJsonList xs ++ "]"
  | .obj kvs => "\x7b" ++ renderJsonObj kvs ++ "\x7d"

/-- Comma-separated rendering of array elements. -/
def renderJsonList : List Json → String
  | [] => ""
  | [j] => renderJson j
  | j :: rest => renderJson j ++ ", " ++ renderJsonList rest

/-- Comma-separated rendering of object members, in list order. -/
def renderJsonObj : List (String × Json) → String
  | [] => ""
  | [(k, v)] => "\"" ++ k ++ "\": " ++ renderJson v
  | (k, v) :: rest =>
    "\"" ++ k ++ "\": " ++ renderJson v ++ ", " ++ renderJsonObj rest

end

/-- Model of `BTreeMap::insert` on a key-sorted association list — serde_json
0.x's `Value::Object` and the `frames` map of `src/bin/pack.rs:65-69`
are `BTreeMap`s ordered by the byte order of the key, which on UTF-8
strings coincides with Lean's lexicographic `String` order.  Keys stay
strictly increasing; inserting an existing key replaces its value. -/
def sortedInsert (k : String) (v : Rect) :
    List (String × Rect) → List (String × Rect)
  | [] => [(k, v)]
  | (k', v') :: rest =>
    if k < k' then (k, v) :: (k', v') :: rest
    else if k' < k then (k', v') :: sortedInsert k v rest
    else (k, v) :: rest

/-- The manifest-building loop of `main` (`src/bin/pack.rs:65-69`): every
packed frame is inserted into the `frames` `BTreeMap` under its name.
Iterating the packer's frame map is modelled by folding over the
placement list; with duplicate names the later insertion overwrites, as
both the packer's `HashMap` and this `BTreeMap` do. -/
def buildFrames (ps : List Placement) : List (String × Rect) :=
  ps.foldl (fun m p => sortedInsert p.name p.frame m) []

/-- A frame rectangle as serialized by serde for the `(x, y, w, h)` tuple
of `src/bin/pack.rs:68`: a 4-element JSON array of integers. -/
def rectJson (r : Rect) : Json :=
  .arr [.nat r.x, .nat r.y, .nat r.w, .nat r.h]

/-- The manifest value of `src/bin/pack.rs:65-71`:
`{"frames": {<name>: [x, y, w, h], ...}}` with the frames in `BTreeMap`
(sorted) order. -/
def manifestJson (ps : List Placement) : Json :=
  .obj [("frames", .obj ((buildFrames ps).map fun nr => (nr.1, rectJson nr.2)))]

/-- The serialized manifest bytes of `src/bin/pack.rs:70-75`. -/
def serializeManifest (ps : List Placement) : String :=
  renderJson (manifestJson ps)

/-- The packing loop of `main` (`src/bin/pack.rs:53-57`): each image is
packed in the supplied order; the value returned by `pack_own` is
discarded (line 56 is a bare statement, never unwrapped), so a placement
failure is silently dropped and the loop continues with the skyline
unchanged. -/
def packLoop (cfg : PackCfg) :
    List (String × Nat × Nat) → List Nat → List Placement → List Placement
  | [], _, acc => acc.reverse
  | (n, w, h) :: rest, sky, acc =>
    match packOne cfg sky n w h with
    | none => packLoop cfg rest sky acc
    | some (p, sky') => packLoop cfg rest sky' (p :: acc)

/-- The pure pack-then-emit composition of `main`
(`src/bin/pack.rs:52-75`): the placements in packing order and the
serialized manifest bytes. -/
def packThenEmit (cfg : PackCfg) (imgs : List (String × Nat × Nat)) :
    List Placement × String :=
  (packLoop cfg imgs (skyInit cfg) [],
   serializeManifest (packLoop cfg imgs (skyInit cfg) []))

/-- The success or failure of each file-system interaction of `main`
(`src/bin/pack.rs:59-75`), injected as an oracle so that the error paths
can be stated. -/
structure FsOracle where
  pngCreateOk : Bool
  pngSaveOk : Bool
  jsonCreateOk : Bool
  jsonWriteOk : Bool
deriving DecidableEq

/-- How the process ended: normally, or by a panic (a `.unwrap()` on an
error, which exits non-zero). -/
inductive ExitKind
  | normal
  | panicked
deriving DecidableEq

/-- The observable outcome of a run of `main`: the exit kind, whether
`<out>.png` was completely written, whether `<out>.json` was completely
written, and the manifest bytes when they were. -/
structure RunOutcome where
  exit : ExitKind
  pngComplete : Bool
  jsonComplete : Bool
  manifestBytes : Option String
deriving DecidableEq

/-- Function `main` from `src/bin/pack.rs:52-76`, with argument parsing and image
decoding abstracted away: pack every image in order discarding per-image
failures (line 56); `File::create` and `save` the png (lines 61-63, each
`.unwrap()` panicking on failure); `File::create` the json (line 73,
`.unwrap()` panicking); then serialize the manifest into it (line 75) —
that `Result` is discarded, so a failure while writing the json still
exits normally.  The png is written before the json and nothing is
cleaned up on a later failure. -/
def runMain (cfg : PackCfg) (imgs : List (String × Nat × Nat))
    (fs : FsOracle) : RunOutcome :=
  let ps := packLoop cfg imgs (skyInit cfg) []
  if fs.pngCreateOk = false then ⟨.panicked, false, false, none⟩
  else if fs.pngSaveOk = false then ⟨.panicked, false, false, none⟩
  else if fs.jsonCreateOk = false then ⟨.panicked, true, false, none⟩
  else if fs.jsonWriteOk = false then ⟨.normal, true, false, none⟩
  else ⟨.normal, true, true, some (serializeManifest ps)⟩

/-! ### Sorted-map lemmas for the manifest -/

theorem mem_sortedInsert (k : String) (v : Rect)
    (l : List (String × Rect)) :
    ∀ a ∈ sortedInsert k v l, a = (k, v) ∨ a ∈ l := by
  induction l with
  | nil =>
    intro a ha
    rw [sortedInsert] at ha
    simp at ha
    exact Or.inl ha
  | cons kv rest ih =>
    obtain ⟨k', v'⟩ := kv
    intro a ha
    rw [sortedInsert] at ha
    by_cases h1 : k < k'
    · rw [if_pos h1] at ha
      simp only [List.mem_cons] at ha ⊢
      tauto
    · rw [if_neg h1] at ha
      by_cases h2 : k' < k
      · rw [if_pos h2] at ha
        simp only [List.mem_cons] at ha ⊢
        rcases ha with rfl | ha
        · tauto
        · rcases ih a ha with h | h <;> tauto
      · rw [if_neg h2] at ha
        simp only [List.mem_cons] at ha ⊢
        tauto

theorem pairwise_sortedInsert (k : String) (v : Rect)
    (l : List (String × Rect))
    (hl : List.Pairwise (fun a b => a.1 < b.1) l) :
    List.Pairwise (fun a b => a.1 < b.1) (sortedInsert k v l) := by
  induction l with
  | nil => simp [sortedInsert]
  | cons kv rest ih =>
    obtain ⟨k', v'⟩ := kv
    rw [List.pairwise_cons] at hl
    obtain ⟨hhead, htail⟩ := hl
    rw [sortedInsert]
    by_cases h1 : k < k'
    · rw [if_pos h1]
      refine List.Pairwise.cons ?_ (List.Pairwise.cons hhead htail)
      intro b hb
      rcases List.mem_cons.mp hb with rfl | hb'
      · exact h1
      · exact lt_trans h1 (hhead b hb')
    · rw [if_neg h1]
      by_cases h2 : k' < k
      · rw [if_pos h2]
        refine List.Pairwise.cons ?_ (ih htail)
        intro b hb
        rcases mem_sortedInsert k v rest b hb with rfl | hb'
        · exact h2
        · exact hhead b hb'
      · rw [if_neg h2]
        have hk : k = k' := le_antisymm (not_lt.mp h2) (not_lt.mp h1)
        refine List.Pairwise.cons ?_ htail
        intro b hb
        rw [hk]
        exact hhead b hb

theorem pairwise_buildFrames_aux (ps : List Placement) :
    ∀ m, List.Pairwise (fun a b => a.1 < b.1) m →
      List.Pairwise (fun a b => a.1 < b.1)
        (ps.foldl (fun m p => sortedInsert p.name p.frame m) m) := by
  induction ps with
  | nil => intro m hm; exact hm
  | cons p rest ih =>
    intro m hm
    rw [List.foldl_cons]
    exact ih _ (pairwise_sortedInsert _ _ _ hm)

theorem pairwise_buildFrames (ps : List Placement) :
    List.Pairwise (fun a b => a.1 < b.1) (buildFrames ps) :=
  pairwise_buildFrames_aux ps [] List.Pairwise.nil

/-! ### Theorems for C1 and C2 -/

/-- C1: in every completed pack, the placements' rectangles each expanded
by `border_padding` are pairwise non-intersecting, and every placement's
rectangle lies within `[0, atlas_width) × [0, atlas_height)`. -/
theorem completed_pack_no_overlap_in_bounds (cfg : PackCfg)
    (imgs : List (String × Nat × Nat)) (ps : List Placement)
    (skyF : List Nat)
    (hok : packAll cfg (skyInit cfg) imgs = .ok (ps, skyF)) :
    List.Pairwise
      (fun p q => ¬ (paddedRect cfg p).intersects (paddedRect cfg q)) ps ∧
    ∀ p ∈ ps, p.frame.x + p.frame.w ≤ cfg.max_width ∧
      p.frame.y + p.frame.h ≤ cfg.max_height := by
  obtain ⟨-, -, hgood, hpw⟩ :=
    packAll_spec cfg imgs (skyInit cfg) ps skyF (by simp [skyInit]) hok
  refine ⟨hpw, fun p hp => ?_⟩
  obtain ⟨g1, g2, g3, g4, -, -⟩ := hgood p hp
  simp only [paddedRect] at g1 g2
  omega

/-- Witness for C1 on the spec's own scenario: two 2×2 squares packed
into a 4×4 atlas; the second rests beside the first at `(2, 0)`. -/
theorem completed_pack_no_overlap_in_bounds_witness :
    List.Pairwise
      (fun p q =>
        ¬ (paddedRect ⟨0, 4, 4⟩ p).intersects (paddedRect ⟨0, 4, 4⟩ q))
      [Placement.mk "a" ⟨0, 0, 2, 2⟩, Placement.mk "b" ⟨2, 0, 2, 2⟩] ∧
    ∀ p ∈ [Placement.mk "a" ⟨0, 0, 2, 2⟩, Placement.mk "b" ⟨2, 0, 2, 2⟩],
      p.frame.x + p.frame.w ≤ (⟨0, 4, 4⟩ : PackCfg).max_width ∧
      p.frame.y + p.frame.h ≤ (⟨0, 4, 4⟩ : PackCfg).max_height :=
  completed_pack_no_overlap_in_bounds ⟨0, 4, 4⟩ [("a", 2, 2), ("b", 2, 2)]
    [Placement.mk "a" ⟨0, 0, 2, 2⟩, Placement.mk "b" ⟨2, 0, 2, 2⟩]
    [2, 2, 2, 2] rfl

/-- C2: packing a fixed ordered input list with a fixed configuration is
deterministic — two runs of the pack-then-emit function yield identical
placements and byte-identical serialized manifests.  The embedded
pipeline is a pure function of its inputs: the pack loop follows the
supplied order, ties are broken deterministically, and the `BTreeMap`
serialization is order-normalizing. -/
theorem pack_two_runs_identical (cfg : PackCfg)
    (imgs1 imgs2 : List (String × Nat × Nat))
    (out1 out2 : List Placement × String)
    (hin : imgs1 = imgs2)
    (h1 : out1 = packThenEmit cfg imgs1)
    (h2 : out2 = packThenEmit cfg imgs2) :
    out1.1 = out2.1 ∧ out1.2 = out2.2 := by
  subst hin; subst h1; subst h2; exact ⟨rfl, rfl⟩

/-- Witness for C2 at a concrete one-image run. -/
theorem pack_two_runs_identical_witness :
    (packThenEmit ⟨0, 4, 4⟩ [("a", 2, 2)]).1 =
      (packThenEmit ⟨0, 4, 4⟩ [("a", 2, 2)]).1 ∧
    (packThenEmit ⟨0, 4, 4⟩ [("a", 2, 2)]).2 =
      (packThenEmit ⟨0, 4, 4⟩ [("a", 2, 2)]).2 :=
  pack_two_runs_identical ⟨0, 4, 4⟩ [("a", 2, 2)] [("a", 2, 2)]
    (packThenEmit ⟨0, 4, 4⟩ [("a", 2, 2)])
    (packThenEmit ⟨0, 4, 4⟩ [("a", 2, 2)]) rfl rfl rfl

/-! ### Theorems for C3, C4, C5 -/

/-- C3 counterexample: with `max_width = max_height = 8`, a 16×16 image
cannot be placed (`packOne` fails), yet the run exits normally and both
output files are written — `src/bin/pack.rs:56` discards the result of
`pack_own`, so the claimed abort does not happen and output files ARE
produced. -/
theorem out_of_space_still_writes_cex :
    packOne ⟨0, 8, 8⟩ (skyInit ⟨0, 8, 8⟩) "big" 16 16 = none ∧
    (runMain ⟨0, 8, 8⟩ [("big", 16, 16)]
      ⟨true, true, true, true⟩).pngComplete = true ∧
    (runMain ⟨0, 8, 8⟩ [("big", 16, 16)]
      ⟨true, true, true, true⟩).jsonComplete = true ∧
    (runMain ⟨0, 8, 8⟩ [("big", 16, 16)]
      ⟨true, true, true, true⟩).exit = ExitKind.normal :=
  ⟨rfl, rfl, rfl, rfl⟩

/-- C3 (amended): an image that cannot be placed within the atlas bounds
is silently skipped — the discarded `pack_own` failure does not abort the
run; when all file operations succeed both output files are still
produced, and the manifest merely omits the unplaced image. -/
theorem unplaceable_image_skipped (cfg : PackCfg) (name : String)
    (w h : Nat) (hfail : packOne cfg (skyInit cfg) name w h = none) :
    runMain cfg [(name, w, h)] ⟨true, true, true, true⟩ =
      ⟨.normal, true, true, some (serializeManifest [])⟩ ∧
    packLoop cfg [(name, w, h)] (skyInit cfg) [] = [] := by
  have hloop : packLoop cfg [(name, w, h)] (skyInit cfg) [] = [] := by
    simp [packLoop, hfail]
  exact ⟨by simp [runMain, hloop], hloop⟩

/-- Witness for the amended C3: the spec's failure scenario (a 16×16
image against 8-pixel bounds). -/
theorem unplaceable_image_skipped_witness :
    runMain ⟨0, 8, 8⟩ [("big", 16, 16)] ⟨true, true, true, true⟩ =
      ⟨.normal, true, true, some (serializeManifest [])⟩ ∧
    packLoop ⟨0, 8, 8⟩ [("big", 16, 16)] (skyInit ⟨0, 8, 8⟩) [] = [] :=
  unplaceable_image_skipped ⟨0, 8, 8⟩ "big" 16 16 rfl

/-- C4 counterexample: when creating `<out>.json` fails after the png was
already saved (`src/bin/pack.rs` writes the png at lines 61-63 before
creating the json at line 73, with no cleanup), the run ends with the png
written and no manifest — so "either both output files are written
correctly, or neither is" is false. -/
theorem png_without_json_cex :
    (runMain ⟨0, 64, 64⟩ [("a", 2, 2)]
      ⟨true, true, false, true⟩).pngComplete = true ∧
    (runMain ⟨0, 64, 64⟩ [("a", 2, 2)]
      ⟨true, true, false, true⟩).jsonComplete = false :=
  ⟨rfl, rfl⟩

/-- C4 (amended): the png is written before the manifest and nothing is
cleaned up afterwards: a complete manifest implies a complete png but not
conversely — a manifest-creation failure leaves the png behind.  Failures
to create either file or to save the png panic (the process exits
non-zero with the underlying cause), but a failure while serializing the
manifest is discarded (`src/bin/pack.rs:75` drops the `Result`) and the
process exits normally without a complete manifest. -/
theorem runMain_output_behavior (cfg : PackCfg)
    (imgs : List (String × Nat × Nat)) (fs : FsOracle) :
    ((runMain cfg imgs fs).jsonComplete = true →
      (runMain cfg imgs fs).pngComplete = true) ∧
    ((runMain cfg imgs fs).exit = ExitKind.panicked ↔
      (fs.pngCreateOk && fs.pngSaveOk && fs.jsonCreateOk) = false) ∧
    (fs.pngCreateOk = true → fs.pngSaveOk = true → fs.jsonCreateOk = true →
      fs.jsonWriteOk = false →
      (runMain cfg imgs fs).exit = ExitKind.normal ∧
      (runMain cfg imgs fs).jsonComplete = false) := by
  obtain ⟨p1, p2, p3, p4⟩ := fs
  cases p1 <;> cases p2 <;> cases p3 <;> cases p4 <;>
    simp [runMain]

/-- Witness for the amended C4: with only the manifest write failing, the
process exits normally and the manifest is incomplete. -/
theorem runMain_output_behavior_witness :
    (runMain ⟨0, 4, 4⟩ [("a", 2, 2)]
      ⟨true, true, true, false⟩).exit = ExitKind.normal ∧
    (runMain ⟨0, 4, 4⟩ [("a", 2, 2)]
      ⟨true, true, true, false⟩).jsonComplete = false :=
  (runMain_output_behavior ⟨0, 4, 4⟩ [("a", 2, 2)]
    ⟨true, true, true, false⟩).2.2 rfl rfl rfl rfl

/-- C5 counterexample: two inputs with the same stem-derived name `"x"`:
no duplicate check exists in `src/bin/pack.rs:53-57`, so the run does not
abort — both rectangles are packed and both files are written with a
normal exit, refuting "reported as a configuration error and the run
aborts before any packing work begins". -/
theorem duplicate_names_not_rejected_cex :
    packLoop ⟨0, 4, 4⟩ [("x", 2, 2), ("x", 2, 2)] (skyInit ⟨0, 4, 4⟩) [] =
      [Placement.mk "x" ⟨0, 0, 2, 2⟩, Placement.mk "x" ⟨2, 0, 2, 2⟩] ∧
    (runMain ⟨0, 4, 4⟩ [("x", 2, 2), ("x", 2, 2)]
      ⟨true, true, true, true⟩).exit = ExitKind.normal ∧
    (runMain ⟨0, 4, 4⟩ [("x", 2, 2), ("x", 2, 2)]
      ⟨true, true, true, true⟩).pngComplete = true ∧
    (runMain ⟨0, 4, 4⟩ [("x", 2, 2), ("x", 2, 2)]
      ⟨true, true, true, true⟩).jsonComplete = true :=
  ⟨rfl, rfl, rfl, rfl⟩

/-- C5 (amended): duplicate source names are not detected; the run packs
both images (each consumes atlas space) and completes normally, and the
manifest keeps a single entry for the duplicated name — the rectangle of
the image packed last (map insertion overwrites). -/
theorem duplicate_names_last_wins (name : String) :
    packLoop ⟨0, 4, 4⟩ [(name, 2, 2), (name, 2, 2)]
        (skyInit ⟨0, 4, 4⟩) [] =
      [Placement.mk name ⟨0, 0, 2, 2⟩, Placement.mk name ⟨2, 0, 2, 2⟩] ∧
    buildFrames (packLoop ⟨0, 4, 4⟩ [(name, 2, 2), (name, 2, 2)]
        (skyInit ⟨0, 4, 4⟩) []) = [(name, ⟨2, 0, 2, 2⟩)] ∧
    (runMain ⟨0, 4, 4⟩ [(name, 2, 2), (name, 2, 2)]
      ⟨true, true, true, true⟩).exit = ExitKind.normal := by
  refine ⟨rfl, ?_, rfl⟩
  show buildFrames
      [Placement.mk name ⟨0, 0, 2, 2⟩, Placement.mk name ⟨2, 0, 2, 2⟩] =
    [(name, ⟨2, 0, 2, 2⟩)]
  simp [buildFrames, sortedInsert, lt_self_iff_false]

/-! ### Theorem for C6 -/

/-- C6: for every list of packed frames, the emitted manifest is the
serialization of a JSON object `{"frames": {<name>: [x, y, w, h], ...}}`
— each frame a 4-element array of integers — whose keys under `"frames"`
appear in lexicographic order by name. -/
theorem manifest_shape_and_key_order (ps : List Placement) :
    ∃ kvs : List (String × Json),
      serializeManifest ps = renderJson (.obj [("frames", .obj kvs)]) ∧
      List.Pairwise (fun a b => a.1 < b.1) kvs ∧
      ∀ kv ∈ kvs, ∃ a b c d,
        kv.2 = Json.arr [.nat a, .nat b, .nat c, .nat d] := by
  refine ⟨(buildFrames ps).map fun nr => (nr.1, rectJson nr.2),
    by rw [serializeManifest, manifestJson], ?_, ?_⟩
  · exact List.Pairwise.map _ (fun a b hab => hab) (pairwise_buildFrames ps)
  · intro kv hkv
    rw [List.mem_map] at hkv
    obtain ⟨nr, _, rfl⟩ := hkv
    exact ⟨nr.2.x, nr.2.y, nr.2.w, nr.2.h, rfl⟩

end Splore
